import Mathlib

/-
  Verification of the BART Schedule terminal client (Go, bubbletea).

  Shallow embedding of the program state machine: the model record, the
  message/command vocabulary, the Update transition function, the departure
  formatting code and the getDepartures decoding logic are translated from
  the Go source.  Network and HTTP effects are abstracted by an explicit
  fetch oracle of type String -> Except String Board that stands for the
  outcome of calling getDepartures(apiKey, abbr) over the wire; the decoding
  part of getDepartures itself is modelled separately on the decoded
  response value.  Go slices are modelled as Lean lists (the nil slice and
  the empty slice are identified), Go machine integers as Int, Go errors as
  String, and the Go map with append-insertion as an association list that
  keeps first-insertion key order.
-/

/-- Station object (name, abbreviation, city), as decoded from the
stations API. -/
structure station where
  Name : String
  Abbr : String
  City : String
deriving DecidableEq

/-- Simple departure information (minutes text and platform text). -/
structure departureInfo where
  Minutes : String
  Platform : String
deriving DecidableEq

/-- One estimate entry of the ETD response. -/
structure estimateEntry where
  Minutes : String
  Platform : String
deriving DecidableEq

/-- One etd entry of the ETD response: a destination with its estimates. -/
structure etdEntry where
  Destination : String
  Estimate : List estimateEntry
deriving DecidableEq

/-- One station entry of the ETD response. -/
structure etdStationEntry where
  Abbr : String
  Name : String
  ETD : List etdEntry
deriving DecidableEq

/-- Decoded ETD response; the JSON root wrapper is elided, Station is the
root.station array. -/
structure etdResponse where
  Station : List etdStationEntry
deriving DecidableEq

/-- The departures map, map from destination to ordered list of
departureInfo.  A Go map written only through
departures[dest] = append(departures[dest], d) is modelled as an
association list in first-insertion key order; the formatter sorts the
keys before use, so the arbitrary Go map iteration order is immaterial. -/
abbrev Board := List (String × List departureInfo)

/-- Reading deps[dest] on the map: the stored list, or nil when absent. -/
def lookupBoard : Board → String → List departureInfo
  | [], _ => []
  | (k, l) :: rest, dest => if k = dest then l else lookupBoard rest dest

/-- departures[dest] = append(departures[dest], d): append to the entry of
dest, or insert a new singleton entry when dest is absent. -/
def boardAppend : Board → String → departureInfo → Board
  | [], dest, d => [(dest, [d])]
  | (k, l) :: rest, dest, d =>
      if k = dest then (k, l ++ [d]) :: rest
      else (k, l) :: boardAppend rest dest d

/-- The nested collection loops of getDepartures: for each station entry,
for each etd entry, for each estimate, append the departure under its
destination. -/
def buildDepartures (data : etdResponse) : Board :=
  data.Station.foldl (fun b st =>
    st.ETD.foldl (fun b etd =>
      etd.Estimate.foldl (fun b est =>
        boardAppend b etd.Destination ⟨est.Minutes, est.Platform⟩) b) b) []

/-- getDepartures after the HTTP and JSON stages: the argument is the
outcome of fetching and decoding the body (an error from transport, read
or unmarshal, or the decoded response).  Mirrors the Go tail of the
function: departures is freshly made, returned empty together with a nil
error when the response holds no station entries, otherwise filled by the
nested loops. -/
def getDepartures (res : Except String etdResponse) : Except String Board :=
  match res with
  | .error e => .error e
  | .ok data =>
      if data.Station.length = 0 then .ok []
      else .ok (buildDepartures data)

/-- Decimal digit run to a number: none when empty or any char is not a
digit (the digit loop of strconv.ParseInt for base 10). -/
def digitsVal : List Char → Option Nat
  | [] => none
  | cs => cs.foldl (fun acc c =>
      match acc with
      | none => none
      | some n => if c.isDigit then some (n * 10 + (c.toNat - 48)) else none)
      (some 0)

/-- Model of strconv.Atoi (= ParseInt(s, 10, 0) with 64-bit int): optional
single leading sign, then at least one decimal digit, value within the
signed 64-bit range; any failure, including range overflow, makes the Go
call return a non-nil error, modelled as none. -/
def goAtoi (s : String) : Option Int :=
  match s.data with
  | [] => none
  | '+' :: rest =>
      (digitsVal rest).bind fun n =>
        if n ≤ 2 ^ 63 - 1 then some (Int.ofNat n) else none
  | '-' :: rest =>
      (digitsVal rest).bind fun n =>
        if n ≤ 2 ^ 63 then some (-(Int.ofNat n)) else none
  | cs =>
      (digitsVal cs).bind fun n =>
        if n ≤ 2 ^ 63 - 1 then some (Int.ofNat n) else none

/-- One departure line of the formatting loops (identical in the enter,
stations-message and tick handlers): the Leaving row gets one leading
space and no min suffix; a row whose minutes text Atoi-parses to a value
below ten gets three leading spaces; every other row gets two. -/
def formatDepLine (dep : departureInfo) : String :=
  if dep.Minutes = "Leaving" then
    " " ++ dep.Minutes ++ " | Platform " ++ dep.Platform ++ "\n"
  else
    match goAtoi dep.Minutes with
    | some min =>
        if min < 10 then
          "   " ++ dep.Minutes ++ " min | Platform " ++ dep.Platform ++ "\n"
        else
          "  " ++ dep.Minutes ++ " min | Platform " ++ dep.Platform ++ "\n"
    | none => "  " ++ dep.Minutes ++ " min | Platform " ++ dep.Platform ++ "\n"

/-- sort.Strings: ascending lexicographic sort of the key slice.  Any
correct comparison sort of strings yields this list, so the model uses
insertion sort; Lean string order is codepoint-lexicographic, which
agrees with the bytewise order Go uses on UTF-8 data. -/
def sortStrings (l : List String) : List String :=
  l.insertionSort (· ≤ ·)

/-- The destination blocks of the formatting code: collect the keys of the
map, sort them, then accumulate dest colon header plus one line per
departure in list order plus a blank line, all into one string. -/
def formatBoard (deps : Board) : String :=
  let keys := sortStrings (deps.map Prod.fst)
  keys.foldl (fun acc dest =>
    ((lookupBoard deps dest).foldl (fun a dep => a ++ formatDepLine dep)
      (acc ++ dest ++ ":\n")) ++ "\n") ""

/-- strings.ToUpper, on the ASCII data appearing in this program (Lean
Char.toUpper maps the ASCII letters exactly as Go does; station codes and
arguments are ASCII). -/
def goToUpper (s : String) : String :=
  String.mk (s.data.map Char.toUpper)

/-- strings.EqualFold on ASCII data: case-insensitive equality. -/
def eqFold (a b : String) : Bool :=
  goToUpper a == goToUpper b

/-- The bubbletea model record of the program. -/
structure model where
  message : String
  stations : List station
  err : Option String
  api_key : String
  cursor : Int
  info : String
  args : List String
  selectedName : String
deriving DecidableEq

/-- The message variants Update dispatches on: a keypress (by its string
form), the stations slice from fetchStations, the tick, and an error. -/
inductive Msg where
  | key (k : String)
  | stationsList (ss : List station)
  | tick
  | errMsg (e : String)

/-- The commands Update returns: nil, tea.Quit, the fetchStations command,
and the tea.Tick reschedule. -/
inductive Cmd where
  | nil
  | quit
  | fetchStations
  | tick
deriving DecidableEq

/-- The enter branch body (guarded in Update by a non-empty station list):
read the station under the cursor, fetch its departures, and set info to
an inline error message on failure or to the formatted board (headed by
the station name) on success.  The Go index read panics out of range; the
model totalizes it with a default station, and the reachable-state guard
is the subject of the safety claim. -/
def handleEnter (fetch : String → Except String Board) (m : model) : model :=
  let selected := m.stations.getD m.cursor.toNat ⟨"", "", ""⟩
  match fetch selected.Abbr with
  | .error e => { m with info := "Error fetching departures: " ++ e }
  | .ok deps => { m with info := selected.Name ++ "\n\n" ++ formatBoard deps }

/-- The stations-message branch: store the list and the banner; when a
command-line argument is present, look for the first station whose code
case-insensitively equals the uppercased argument; on a match remember the
station name, fetch its departures into info (board text on success,
inline error text on failure) and clear the station list; otherwise leave
the rest of the state as it is. -/
def handleStations (fetch : String → Except String Board) (m : model)
    (ss : List station) : model × Cmd :=
  let m1 := { m with stations := ss, message := "\nLive Tracking\n=============" }
  if m1.args.length > 0 then
    let stationAbbr := goToUpper (m1.args.headD "")
    match m1.stations.find? (fun st => eqFold st.Abbr stationAbbr) with
    | some st =>
        let m2 := { m1 with selectedName := st.Name }
        match fetch st.Abbr with
        | .error e =>
            ({ m2 with
                info := "Error fetching departures for " ++ st.Abbr ++ ": " ++ e,
                stations := [] }, Cmd.nil)
        | .ok deps =>
            ({ m2 with
                info := st.Name ++ " Departures\n\n" ++ formatBoard deps,
                stations := [] }, Cmd.nil)
    | none => (m1, Cmd.nil)
  else (m1, Cmd.nil)

/-- The tick branch: when arguments are present and the station list is
nil (the locked mode), refresh the departures of the uppercased argument
code, writing the board text (headed by the remembered name when one is
set) or an inline error into info; in every case return the reschedule
command. -/
def handleTick (fetch : String → Except String Board) (m : model) : model × Cmd :=
  if m.args.length > 0 ∧ m.stations = [] then
    let stationAbbr := goToUpper (m.args.headD "")
    match fetch stationAbbr with
    | .error e =>
        ({ m with
            info := "Error refreshing departures for " ++ stationAbbr ++ ": " ++ e },
         Cmd.tick)
    | .ok deps =>
        let displayName := if m.selectedName ≠ "" then m.selectedName else stationAbbr
        ({ m with info := displayName ++ " Departures\n\n" ++ formatBoard deps },
         Cmd.tick)
  else (m, Cmd.tick)

/-- The Update method of the model: dispatch over the message variants and,
for a keypress, over the key string, exactly following the Go switch
(the unmatched cases fall through to returning the model unchanged with a
nil command). -/
def Update (fetch : String → Except String Board) (m : model) (msg : Msg) :
    model × Cmd :=
  match msg with
  | .key k =>
      match k with
      | "ctrl+c" | "q" | "Q" => (m, Cmd.quit)
      | "up" | "k" =>
          (if m.cursor > 0 then { m with cursor := m.cursor - 1 } else m, Cmd.nil)
      | "down" | "j" =>
          (if m.cursor < (m.stations.length : Int) - 1 then
            { m with cursor := m.cursor + 1 }
          else m, Cmd.nil)
      | "r" | "R" =>
          ({ m with
              message := "\nRefreshing stations...",
              cursor := 0,
              stations := [],
              info := "" }, Cmd.fetchStations)
      | "enter" =>
          (if m.stations.length > 0 then handleEnter fetch m else m, Cmd.nil)
      | _ => (m, Cmd.nil)
  | .stationsList ss => handleStations fetch m ss
  | .tick => handleTick fetch m
  | .errMsg e =>
      ({ m with err := some e, message := "Error loading stations: " ++ e }, Cmd.nil)

/-- Concatenation of a list of strings, used to restate the accumulating
formatting loops block by block. -/
def concatAll : List String → String
  | [] => ""
  | s :: rest => s ++ concatAll rest

/-- The text block one destination contributes to the formatted board:
header line, one formatted line per departure in stored order, blank
line. -/
def depBlock (deps : Board) (dest : String) : String :=
  dest ++ ":\n" ++ concatAll ((lookupBoard deps dest).map formatDepLine) ++ "\n"

/-- The departures of the decoded response flattened in traversal order of
the nested collection loops: per station entry, per etd entry, per
estimate, tagged with the destination. -/
def respPairs (data : etdResponse) : List (String × departureInfo) :=
  data.Station.flatMap fun st => st.ETD.flatMap fun etd =>
    etd.Estimate.map fun est =>
      (etd.Destination, (⟨est.Minutes, est.Platform⟩ : departureInfo))

/-- A fetch oracle that always fails; used for concrete instances whose
behaviour must not depend on the network. -/
def noFetch : String → Except String Board := fun _ => Except.error "unreachable"

/-- Concrete model with a previously set fatal error, about to receive a
stations message. -/
def c1Model : model :=
  { message := "Error loading stations: boom", stations := [], err := some "boom",
    api_key := "key", cursor := 0, info := "", args := [], selectedName := "" }

/-- Concrete model from the repository test TestUpdateMoveCursorUp: two
stations, cursor on the second row. -/
def c2ModelW : model :=
  { message := "", stations := [⟨"", "", ""⟩, ⟨"", "", ""⟩], err := none,
    api_key := "", cursor := 1, info := "", args := [], selectedName := "" }

/-- Concrete model from the repository test TestUpdateMoveCursorDown: two
stations, cursor on the first row. -/
def c2ModelS : model := { c2ModelW with cursor := 0 }

/-- The conclusion of the cursor-bounds claim: after any navigation key
the cursor stays within the station list range, and a press at the
boundary leaves the model unchanged. -/
def cursorNavOk (f : String → Except String Board) (m : model) : Prop :=
  (0 ≤ (Update f m (Msg.key "up")).1.cursor ∧
    (Update f m (Msg.key "up")).1.cursor < (m.stations.length : Int)) ∧
  (0 ≤ (Update f m (Msg.key "k")).1.cursor ∧
    (Update f m (Msg.key "k")).1.cursor < (m.stations.length : Int)) ∧
  (0 ≤ (Update f m (Msg.key "down")).1.cursor ∧
    (Update f m (Msg.key "down")).1.cursor < (m.stations.length : Int)) ∧
  (0 ≤ (Update f m (Msg.key "j")).1.cursor ∧
    (Update f m (Msg.key "j")).1.cursor < (m.stations.length : Int)) ∧
  (m.cursor = 0 →
    (Update f m (Msg.key "up")).1 = m ∧ (Update f m (Msg.key "k")).1 = m) ∧
  (m.cursor = (m.stations.length : Int) - 1 →
    (Update f m (Msg.key "down")).1 = m ∧ (Update f m (Msg.key "j")).1 = m)

/-- Concrete three-station model for the cursor-bounds witness. -/
def c3Model : model :=
  { message := "", stations := [⟨"A", "A", "A"⟩, ⟨"B", "B", "B"⟩, ⟨"C", "C", "C"⟩],
    err := none, api_key := "", cursor := 1, info := "", args := [],
    selectedName := "" }

/-- n leading spaces, the vocabulary of the formatting claim. -/
def spacesStr (n : Nat) : String := String.mk (List.replicate n ' ')

/-- The per-line formatting rule exactly as the claim words it: Leaving
gets one leading space and no min suffix; a minutes text that parses as a
NON-NEGATIVE integer below ten gets three leading spaces and the min
suffix; every other case (parse failure or value at least ten) gets two
leading spaces with the minutes text passed through verbatim.  Written
from the claim, to be compared with formatDepLine, which is written from
the source. -/
def claimC4SpecLine (dep : departureInfo) : String :=
  if dep.Minutes = "Leaving" then
    spacesStr 1 ++ dep.Minutes ++ " | Platform " ++ dep.Platform ++ "\n"
  else if (goAtoi dep.Minutes).any (fun v => decide (0 ≤ v) && decide (v < 10)) then
    spacesStr 3 ++ dep.Minutes ++ " min | Platform " ++ dep.Platform ++ "\n"
  else
    spacesStr 2 ++ dep.Minutes ++ " min | Platform " ++ dep.Platform ++ "\n"

/-- The amended per-line formatting rule: as claimC4SpecLine, except that
ANY parsed value below ten (negative values included, since Atoi accepts
a sign) gets the three-space form. -/
def claimC4AmendedLine (dep : departureInfo) : String :=
  if dep.Minutes = "Leaving" then
    spacesStr 1 ++ dep.Minutes ++ " | Platform " ++ dep.Platform ++ "\n"
  else if (goAtoi dep.Minutes).any (fun v => decide (v < 10)) then
    spacesStr 3 ++ dep.Minutes ++ " min | Platform " ++ dep.Platform ++ "\n"
  else
    spacesStr 2 ++ dep.Minutes ++ " min | Platform " ++ dep.Platform ++ "\n"

/-- The locked-startup conclusion of the stations-message claim: the
picker is hidden and the board text for the matched station fills the
departure pane, its name remembered. -/
def c6MatchConcl (f : String → Except String Board) (m : model)
    (ss : List station) (st : station) (deps : Board) : Prop :=
  (Update f m (Msg.stationsList ss)).1.stations = [] ∧
  (Update f m (Msg.stationsList ss)).1.info =
    st.Name ++ " Departures\n\n" ++ formatBoard deps ∧
  (Update f m (Msg.stationsList ss)).1.selectedName = st.Name

/-- The no-match conclusion of the stations-message claim: picker shown,
departure pane and error field untouched, nil command. -/
def c6NoMatchConcl (f : String → Except String Board) (m : model)
    (ss : List station) : Prop :=
  (Update f m (Msg.stationsList ss)).1.stations = ss ∧
  (Update f m (Msg.stationsList ss)).1.info = m.info ∧
  (Update f m (Msg.stationsList ss)).1.err = m.err ∧
  (Update f m (Msg.stationsList ss)).2 = Cmd.nil

def c6Station : station := ⟨"Powell St.", "POWL", "San Francisco"⟩

def c6Board : Board := [("Dublin", [⟨"5", "2"⟩])]

def c6Fetch : String → Except String Board :=
  fun a => if a = "POWL" then .ok c6Board else .error "x"

def c6Model : model :=
  { message := "", stations := [], err := none, api_key := "k", cursor := 0,
    info := "", args := ["powl"], selectedName := "" }

/-- Locked predicate of the tick handler, as the code tests it: arguments
present and the station list nil. -/
def lockedOn (m : model) : Prop := m.args ≠ [] ∧ m.stations = []

/-- The locked successful-refresh conclusion of the tick claim. -/
def c7OkConcl (f : String → Except String Board) (m : model) (deps : Board) : Prop :=
  Update f m Msg.tick =
    ({ m with
        info := (if m.selectedName ≠ "" then m.selectedName
          else goToUpper (m.args.headD "")) ++ " Departures\n\n" ++
          formatBoard deps }, Cmd.tick)

/-- The locked failed-refresh conclusion of the tick claim: only the
departure pane carries the error text. -/
def c7ErrConcl (f : String → Except String Board) (m : model) (e : String) : Prop :=
  Update f m Msg.tick =
    ({ m with
        info := "Error refreshing departures for " ++ goToUpper (m.args.headD "") ++
          ": " ++ e }, Cmd.tick)

def c7Model : model :=
  { message := "", stations := [], err := none, api_key := "k", cursor := 0,
    info := "", args := ["powl"], selectedName := "Powell St." }

/-- The conclusion of the enter-failure claim: only the departure pane
carries the error text; stations, cursor and the fatal error field are
untouched and no command is issued. -/
def c8Concl (f : String → Except String Board) (m : model) (e : String) : Prop :=
  (Update f m (Msg.key "enter")).1.info = "Error fetching departures: " ++ e ∧
  (Update f m (Msg.key "enter")).1.stations = m.stations ∧
  (Update f m (Msg.key "enter")).1.cursor = m.cursor ∧
  (Update f m (Msg.key "enter")).1.err = m.err ∧
  (Update f m (Msg.key "enter")).2 = Cmd.nil

def c8Model : model :=
  { message := "", stations := [⟨"Powell St.", "POWL", "San Francisco"⟩],
    err := none, api_key := "k", cursor := 0, info := "", args := [],
    selectedName := "" }

def c9Model : model :=
  { message := "", stations := [], err := none, api_key := "k", cursor := 3,
    info := "", args := [], selectedName := "" }

theorem strAppend_assoc (a b c : String) : a ++ b ++ c = a ++ (b ++ c) := by
  apply String.ext
  simp [String.data_append]

theorem foldl_append_concat {α : Type} (f : α → String) (l : List α) (s : String) :
    l.foldl (fun a x => a ++ f x) s = s ++ concatAll (l.map f) := by
  induction l generalizing s with
  | nil => simp [concatAll]
  | cons x xs ih => simp [concatAll, ih, strAppend_assoc]

theorem formatBoard_eq_concat (deps : Board) :
    formatBoard deps =
      concatAll ((sortStrings (deps.map Prod.fst)).map (depBlock deps)) := by
  unfold formatBoard
  have h2 : (fun (acc dest : String) =>
      ((lookupBoard deps dest).foldl (fun a dep => a ++ formatDepLine dep)
        (acc ++ dest ++ ":\n")) ++ "\n")
      = fun acc dest => acc ++ depBlock deps dest := by
    funext acc dest
    rw [foldl_append_concat]
    simp [depBlock, strAppend_assoc]
  rw [h2, foldl_append_concat, String.empty_append]

theorem lookup_boardAppend (b : Board) (k : String) (d : departureInfo)
    (dest : String) :
    lookupBoard (boardAppend b k d) dest =
      lookupBoard b dest ++ (if k = dest then [d] else []) := by
  induction b with
  | nil =>
      by_cases h : k = dest <;> simp [boardAppend, lookupBoard, h]
  | cons p rest ih =>
      obtain ⟨k0, l0⟩ := p
      by_cases h1 : k0 = k
      · subst h1
        by_cases h2 : k0 = dest <;> simp [boardAppend, lookupBoard, h2]
      · by_cases h2 : k0 = dest
        · subst h2
          simp [boardAppend, lookupBoard, h1, Ne.symm h1]
        · simp [boardAppend, lookupBoard, h1, h2, ih]

theorem lookup_foldl_pairs (ps : List (String × departureInfo)) (b : Board)
    (dest : String) :
    lookupBoard (ps.foldl (fun b p => boardAppend b p.1 p.2) b) dest =
      lookupBoard b dest ++
        ps.filterMap (fun p => if p.1 = dest then some p.2 else none) := by
  induction ps generalizing b with
  | nil => simp
  | cons p ps ih =>
      simp only [List.foldl_cons, List.filterMap_cons]
      rw [ih, lookup_boardAppend]
      by_cases h : p.1 = dest <;> simp [h]

theorem foldl_flatMap {α β γ : Type} (f : β → γ → β) (g : α → List γ)
    (l : List α) (s : β) :
    (l.flatMap g).foldl f s = l.foldl (fun b a => (g a).foldl f b) s := by
  induction l generalizing s with
  | nil => rfl
  | cons x xs ih => simp [List.flatMap_cons, List.foldl_append, ih]

theorem buildDepartures_eq_pairs (data : etdResponse) :
    buildDepartures data =
      (respPairs data).foldl (fun b p => boardAppend b p.1 p.2) [] := by
  unfold buildDepartures respPairs
  simp [foldl_flatMap, List.foldl_map]

theorem lookup_buildDepartures (data : etdResponse) (dest : String) :
    lookupBoard (buildDepartures data) dest =
      (respPairs data).filterMap
        (fun p => if p.1 = dest then some p.2 else none) := by
  rw [buildDepartures_eq_pairs, lookup_foldl_pairs]
  simp [lookupBoard]

/-- Claim C1, counterexample: a model with a non-nil err that processes a
stations message keeps its err; the claim as stated says the err field
becomes none. -/
theorem claimC1_counterexample :
    (Update noFetch c1Model
      (Msg.stationsList [⟨"Powell St.", "POWL", "San Francisco"⟩])).1.err ≠ none := by
  decide

/-- Claim C1, amended: processing a stations message leaves the err field
of the model unchanged; a previously set error is never cleared by it, so
the error banner keeps replacing all other rendering. -/
theorem claimC1_err_unchanged (f : String → Except String Board) (m : model)
    (ss : List station) :
    (Update f m (Msg.stationsList ss)).1.err = m.err := by
  show (handleStations f m ss).1.err = m.err
  unfold handleStations
  dsimp only
  split
  · split
    · split <;> rfl
    · rfl
  · rfl

/-- Claim C2, code evaluated at the failing inputs: the key w leaves the
cursor at 1 instead of moving it up to 0, and the key s leaves the cursor
at 0 instead of moving it down to 1 — both keys fall through the key
switch unhandled, contradicting the repository tests
TestUpdateMoveCursorUp and TestUpdateMoveCursorDown. -/
theorem claimC2_keys_w_s_unhandled :
    Update noFetch c2ModelW (Msg.key "w") = (c2ModelW, Cmd.nil) ∧
    Update noFetch c2ModelS (Msg.key "s") = (c2ModelS, Cmd.nil) :=
  ⟨rfl, rfl⟩

/-- Claim C3: with a cursor inside the range of a non-empty station list,
every navigation key keeps the cursor inside the range and boundary
presses are no-ops. -/
theorem claimC3_cursor_bounds (f : String → Except String Board) (m : model)
    (h1 : 0 ≤ m.cursor) (h2 : m.cursor < (m.stations.length : Int)) :
    cursorNavOk f m := by
  have hu : Update f m (Msg.key "up") =
      (if 0 < m.cursor then { m with cursor := m.cursor - 1 } else m, Cmd.nil) := rfl
  have hk : Update f m (Msg.key "k") =
      (if 0 < m.cursor then { m with cursor := m.cursor - 1 } else m, Cmd.nil) := rfl
  have hd : Update f m (Msg.key "down") =
      (if m.cursor < (m.stations.length : Int) - 1 then
        { m with cursor := m.cursor + 1 } else m, Cmd.nil) := rfl
  have hj : Update f m (Msg.key "j") =
      (if m.cursor < (m.stations.length : Int) - 1 then
        { m with cursor := m.cursor + 1 } else m, Cmd.nil) := rfl
  refine ⟨?_, ?_, ?_, ?_, ?_, ?_⟩
  · rw [hu]; split <;> simp <;> omega
  · rw [hk]; split <;> simp <;> omega
  · rw [hd]; split <;> simp <;> omega
  · rw [hj]; split <;> simp <;> omega
  · intro h0
    constructor <;> [rw [hu]; rw [hk]] <;> simp [h0]
  · intro hlast
    constructor <;> [rw [hd]; rw [hj]] <;> simp [hlast]

theorem claimC3_witness :
    (0 ≤ c3Model.cursor ∧ c3Model.cursor < (c3Model.stations.length : Int)) ∧
    cursorNavOk noFetch c3Model :=
  ⟨by decide, claimC3_cursor_bounds noFetch c3Model (by decide) (by decide)⟩

/-- Claim C4, counterexample: a minutes text of -1 Atoi-parses to a
negative value below ten, so the code renders it with three leading
spaces, while the claim (parse as a non-negative integer fails) demands
two. -/
theorem claimC4_counterexample :
    formatDepLine ⟨"-1", "1"⟩ ≠ claimC4SpecLine ⟨"-1", "1"⟩ := by
  decide

/-- Claim C4, amended: the per-line formatting of the code agrees with the
claim rule everywhere once the three-space case reads ANY Atoi-parsed
value below ten rather than only non-negative ones. -/
theorem claimC4_line_formatting (dep : departureInfo) :
    formatDepLine dep = claimC4AmendedLine dep := by
  unfold formatDepLine claimC4AmendedLine
  by_cases hL : dep.Minutes = "Leaving"
  · simp only [hL, if_pos rfl]
    rfl
  · simp only [hL, if_neg, ite_false]
    cases h : goAtoi dep.Minutes with
    | none => simp [Option.any, spacesStr]
    | some v =>
        by_cases hv : v < 10 <;> simp [Option.any, hv, spacesStr]

/-- Claim C5: for any decoded response, the formatted board lists the
destination headers in ascending order (a sorted permutation of the map
keys, whatever the arrival order was), and the lines under each
destination are the formatted departures of that destination in the exact
order they occur in the fetched response, never re-sorted. -/
theorem claimC5_sorted_headers_rows_in_order (data : etdResponse) :
    List.Sorted (· ≤ ·) (sortStrings ((buildDepartures data).map Prod.fst)) ∧
    (sortStrings ((buildDepartures data).map Prod.fst)).Perm
      ((buildDepartures data).map Prod.fst) ∧
    formatBoard (buildDepartures data) =
      concatAll ((sortStrings ((buildDepartures data).map Prod.fst)).map
        (depBlock (buildDepartures data))) ∧
    ∀ dest, lookupBoard (buildDepartures data) dest =
      (respPairs data).filterMap
        (fun p => if p.1 = dest then some p.2 else none) :=
  ⟨List.sorted_insertionSort _ _, List.perm_insertionSort _ _,
    formatBoard_eq_concat _, fun dest => lookup_buildDepartures data dest⟩

theorem handleStations_match_ok (f : String → Except String Board) (m : model)
    (ss : List station) (st : station) (deps : Board)
    (hargs : m.args ≠ [])
    (hfind : ss.find? (fun s => eqFold s.Abbr (goToUpper (m.args.headD ""))) = some st)
    (hfetch : f st.Abbr = .ok deps) :
    handleStations f m ss =
      ({ m with
          stations := [],
          message := "\nLive Tracking\n=============",
          selectedName := st.Name,
          info := st.Name ++ " Departures\n\n" ++ formatBoard deps }, Cmd.nil) := by
  unfold handleStations
  have hlen : 0 < m.args.length := List.length_pos.mpr hargs
  dsimp only
  rw [if_pos hlen, hfind]
  dsimp only
  rw [hfetch]

theorem handleStations_no_match (f : String → Except String Board) (m : model)
    (ss : List station)
    (hfind : ss.find? (fun s => eqFold s.Abbr (goToUpper (m.args.headD ""))) = none) :
    handleStations f m ss =
      ({ m with
          stations := ss,
          message := "\nLive Tracking\n=============" }, Cmd.nil) := by
  unfold handleStations
  dsimp only
  split
  · rw [hfind]
  · rfl

/-- Claim C6: with a startup station-code argument, processing the
stations message hides the picker and populates the board for the first
case-insensitively matching station without any keypress; when no station
matches, the picker stays up with no board populated and no error
raised. -/
theorem claimC6_startup_argument (f : String → Except String Board) (m : model)
    (ss : List station) (hargs : m.args ≠ []) :
    (∀ st deps,
      ss.find? (fun s => eqFold s.Abbr (goToUpper (m.args.headD ""))) = some st →
      f st.Abbr = .ok deps → c6MatchConcl f m ss st deps) ∧
    (ss.find? (fun s => eqFold s.Abbr (goToUpper (m.args.headD ""))) = none →
      c6NoMatchConcl f m ss) := by
  constructor
  · intro st deps hfind hfetch
    have h : Update f m (Msg.stationsList ss) =
        ({ m with
            stations := [],
            message := "\nLive Tracking\n=============",
            selectedName := st.Name,
            info := st.Name ++ " Departures\n\n" ++ formatBoard deps }, Cmd.nil) :=
      handleStations_match_ok f m ss st deps hargs hfind hfetch
    unfold c6MatchConcl
    rw [h]
    exact ⟨rfl, rfl, rfl⟩
  · intro hfind
    have h : Update f m (Msg.stationsList ss) =
        ({ m with
            stations := ss,
            message := "\nLive Tracking\n=============" }, Cmd.nil) :=
      handleStations_no_match f m ss hfind
    unfold c6NoMatchConcl
    rw [h]
    exact ⟨rfl, rfl, rfl, rfl⟩

theorem claimC6_witness :
    c6Model.args ≠ [] ∧ c6MatchConcl c6Fetch c6Model [c6Station] c6Station c6Board :=
  ⟨by decide,
    (claimC6_startup_argument c6Fetch c6Model [c6Station] (by decide)).1
      c6Station c6Board (by rfl) (by rfl)⟩

/-- Claim C7: the tick refreshes the board only when locked onto a station
(replacing the board text on success, writing a departure-pane error on
failure), leaves the whole model untouched otherwise, and in every case
returns the reschedule command, so the timer is never cancelled. -/
theorem claimC7_tick_behaviour (f : String → Except String Board) (m : model) :
    (lockedOn m →
      (∀ deps, f (goToUpper (m.args.headD "")) = .ok deps → c7OkConcl f m deps) ∧
      (∀ e, f (goToUpper (m.args.headD "")) = .error e → c7ErrConcl f m e)) ∧
    (¬ lockedOn m → Update f m Msg.tick = (m, Cmd.tick)) ∧
    (Update f m Msg.tick).2 = Cmd.tick := by
  have hcond : (m.args.length > 0 ∧ m.stations = []) ↔ lockedOn m := by
    unfold lockedOn
    constructor
    · rintro ⟨h1, h2⟩
      exact ⟨List.length_pos.mp h1, h2⟩
    · rintro ⟨h1, h2⟩
      exact ⟨List.length_pos.mpr h1, h2⟩
  refine ⟨?_, ?_, ?_⟩
  · intro hl
    constructor
    · intro deps hfetch
      unfold c7OkConcl
      show handleTick f m = _
      unfold handleTick
      rw [if_pos (hcond.mpr hl)]
      dsimp only
      rw [hfetch]
    · intro e hfetch
      unfold c7ErrConcl
      show handleTick f m = _
      unfold handleTick
      rw [if_pos (hcond.mpr hl)]
      dsimp only
      rw [hfetch]
  · intro hnl
    show handleTick f m = _
    unfold handleTick
    rw [if_neg (fun hc => hnl (hcond.mp hc))]
  · show (handleTick f m).2 = Cmd.tick
    unfold handleTick
    split
    · dsimp only
      split <;> rfl
    · rfl

theorem claimC7_witness :
    lockedOn c7Model ∧ c7OkConcl c6Fetch c7Model c6Board :=
  ⟨⟨by decide, rfl⟩,
    ((claimC7_tick_behaviour c6Fetch c7Model).1 ⟨by decide, rfl⟩).1 c6Board (by rfl)⟩

/-- Claim C8: when the departure fetch of the select key fails, only the
info field receives the error message; the station list, the cursor and
the fatal error field stay as they were. -/
theorem claimC8_enter_failure_local (f : String → Except String Board) (m : model)
    (e : String) (h1 : m.stations ≠ [])
    (h2 : f ((m.stations.getD m.cursor.toNat ⟨"", "", ""⟩).Abbr) = .error e) :
    c8Concl f m e := by
  have hlen : m.stations.length > 0 := List.length_pos.mpr h1
  have hup : Update f m (Msg.key "enter") =
      (if m.stations.length > 0 then handleEnter f m else m, Cmd.nil) := rfl
  have hh : handleEnter f m = { m with info := "Error fetching departures: " ++ e } := by
    unfold handleEnter
    dsimp only
    rw [h2]
  unfold c8Concl
  rw [hup, if_pos hlen, hh]
  exact ⟨rfl, rfl, rfl, rfl, rfl⟩

theorem claimC8_witness :
    c8Model.stations ≠ [] ∧ c8Concl noFetch c8Model "unreachable" :=
  ⟨by decide, claimC8_enter_failure_local noFetch c8Model "unreachable"
    (by decide) (by rfl)⟩

/-- Claim C9: pressing enter with an empty station list returns the model
unchanged with a nil command, and the result does not depend on the fetch
oracle at all, so no departure fetch is issued and the guarded index read
never happens out of bounds. -/
theorem claimC9_enter_empty_noop (f g : String → Except String Board) (m : model)
    (h : m.stations = []) :
    Update f m (Msg.key "enter") = (m, Cmd.nil) ∧
    Update f m (Msg.key "enter") = Update g m (Msg.key "enter") := by
  have hlen : ¬ m.stations.length > 0 := by
    simp [h]
  have hup : Update f m (Msg.key "enter") =
      (if m.stations.length > 0 then handleEnter f m else m, Cmd.nil) := rfl
  have hug : Update g m (Msg.key "enter") =
      (if m.stations.length > 0 then handleEnter g m else m, Cmd.nil) := rfl
  rw [hup, hug]
  simp [if_neg hlen]

theorem claimC9_witness :
    c9Model.stations = [] ∧
    (Update noFetch c9Model (Msg.key "enter") = (c9Model, Cmd.nil) ∧
      Update noFetch c9Model (Msg.key "enter") =
        Update (fun _ => Except.ok c6Board) c9Model (Msg.key "enter")) :=
  ⟨rfl, claimC9_enter_empty_noop noFetch (fun _ => Except.ok c6Board) c9Model rfl⟩

/-- Claim C10: a decoded departures response with zero station entries
makes getDepartures return the empty map together with no error. -/
theorem claimC10_empty_response (data : etdResponse) (h : data.Station = []) :
    getDepartures (Except.ok data) = Except.ok ([] : Board) := by
  unfold getDepartures
  dsimp only
  rw [h]
  rfl

theorem claimC10_witness :
    (etdResponse.mk []).Station = [] ∧
    getDepartures (Except.ok (etdResponse.mk [])) = Except.ok ([] : Board) :=
  ⟨rfl, claimC10_empty_response (etdResponse.mk []) rfl⟩
